import Mathlib

/-!
# PHPark — shallow embedding and verification of spec claims

This file embeds the behaviourally relevant parts of the `phppark` Go
repository (a local PHP development-environment manager) in Lean 4 and
settles a fixed list of claims about it.

Shallow-embedding conventions used throughout:

* Go strings are Lean `String`s.  The Go standard-library string functions
  (`strings.Split`, `strings.Contains`, `strings.HasPrefix`, ...) are
  re-implemented below on the underlying character lists so that every
  definition is executable by the kernel (`decide` / `rfl`).  Go compares
  strings byte-wise on their UTF-8 encoding; lexicographic comparison of
  UTF-8 byte sequences coincides with lexicographic comparison of the
  code-point sequences, which is what `chLt` below implements.
* External effects (reading a directory, running a binary to ask its
  version, `systemctl ...`, file existence) are oracles packaged in
  environment structures; a run of an effectful Go function becomes a pure
  Lean function of the environment, returning a trace of the effect events
  it would have issued and/or the produced data.
* Go's `error` results are modelled by `Option E` / small error inductives
  (`none` = nil error).
-/

/-! ## Character-list implementations of the Go `strings` functions -/

/-- `chStarts pre s` : the character list `s` starts with `pre`
(Go `strings.HasPrefix(s, pre)` on code points). -/
def chStarts : List Char → List Char → Bool
  | [], _ => true
  | _ :: _, [] => false
  | a :: as, b :: bs => a = b && chStarts as bs

/-- Go `strings.HasPrefix(s, pre)`. -/
def goStartsWith (s pre : String) : Bool :=
  chStarts pre.data s.data

/-- Go `strings.HasSuffix(s, suf)`. -/
def goEndsWith (s suf : String) : Bool :=
  chStarts suf.data.reverse s.data.reverse

/-- `chContains sub s` : `sub` occurs as a contiguous run inside `s`. -/
def chContains (sub : List Char) : List Char → Bool
  | [] => chStarts sub []
  | c :: cs => chStarts sub (c :: cs) || chContains sub cs

/-- Go `strings.Contains(s, sub)`. -/
def goContains (s sub : String) : Bool :=
  chContains sub.data s.data

/-- Worker for `goSplit`: splits on each leftmost non-overlapping occurrence
of `sep`.  `fuel` bounds the recursion; it is initialised to the length of
the input, which suffices whenever `sep` is non-empty (every step consumes
at least one character).  All call sites in this file use non-empty
separators. -/
def goSplitAux (sep : List Char) : Nat → List Char → List Char → List (List Char)
  | _, [], acc => [acc.reverse]
  | 0, s, acc => [acc.reverse ++ s]
  | fuel + 1, c :: cs, acc =>
      if chStarts sep (c :: cs) then
        acc.reverse :: goSplitAux sep fuel ((c :: cs).drop sep.length) []
      else
        goSplitAux sep fuel cs (c :: acc)

/-- Go `strings.Split(s, sep)` for non-empty `sep`. -/
def goSplit (s sep : String) : List String :=
  (goSplitAux sep.data s.data.length s.data []).map String.mk

/-- Go `strings.Join(elems, sep)`. -/
def goJoin (elems : List String) (sep : String) : String :=
  String.mk (sep.data.intercalate (elems.map String.data))

/-- Go `strings.TrimSpace`. -/
def goTrimSpace (s : String) : String :=
  String.mk (((s.data.dropWhile Char.isWhitespace).reverse.dropWhile Char.isWhitespace).reverse)

/-- Worker for `goReplaceOnce`: replaces the leftmost occurrence of the
non-empty pattern `old` by `new`. -/
def chReplaceOnce (old new : List Char) : List Char → List Char
  | [] => []
  | c :: cs =>
      if chStarts old (c :: cs) then new ++ (c :: cs).drop old.length
      else c :: chReplaceOnce old new cs

/-- Go `strings.Replace(s, old, new, 1)` for non-empty `old`. -/
def goReplaceOnce (s old new : String) : String :=
  String.mk (chReplaceOnce old.data new.data s.data)

/-- Strict lexicographic comparison of character lists; agrees with Go's
`<` on strings (byte-wise comparison of the UTF-8 encodings). -/
def chLt : List Char → List Char → Bool
  | _, [] => false
  | [], _ :: _ => true
  | a :: as, b :: bs => if a = b then chLt as bs else decide (a < b)

/-- Go `s < t` on strings. -/
def goStrLt (s t : String) : Bool :=
  chLt s.data t.data

/-- Go `filepath.Join(a, b)` for already-clean path components, as used by
every call site embedded here. -/
def filepathJoin (a b : String) : String :=
  a ++ "/" ++ b

/-! ## Deployment service (`internal/services/nginx.go`)

`DeployNginxConfig` copies the rendered file to `sites-available`, links it
from `sites-enabled`, opportunistically removes the `default` site, runs
`nginx -t` (validation) and only then `reload`s.  The embedding records the
external actions in order as a trace of `DeployEvent`s; the booleans of a
`DeployEnv` are the success/failure oracles of the individual steps. -/

/-- The externally observable steps of `DeployNginxConfig`, in the order the
Go function issues them. -/
inductive DeployEvent where
  | copyConfig
  | createSymlink
  | removeDefault
  | testConfig
  | reload
deriving DecidableEq, Repr

/-- Failure modes of `DeployNginxConfig` (the wrapped Go error values). -/
inductive DeployError where
  | copyFailed
  | symlinkFailed
  | validationFailed
  | reloadFailed
deriving DecidableEq, Repr

/-- Outcome oracles for a run of `DeployNginxConfig`:  whether each external
step fails, and whether `/etc/nginx/sites-enabled/default` exists. -/
structure DeployEnv where
  copyFails : Bool
  symlinkFails : Bool
  defaultSiteExists : Bool
  removeDefaultFails : Bool
  testFails : Bool
  reloadFails : Bool
deriving DecidableEq, Repr

/-- `DeployNginxConfig` from `internal/services/nginx.go`: the ordered event
trace of a run together with its result (`none` = success).  A failed
removal of the `default` site only prints a warning (non-fatal). -/
def DeployNginxConfig (env : DeployEnv) : List DeployEvent × Option DeployError :=
  let t := [DeployEvent.copyConfig]
  if env.copyFails then (t, some DeployError.copyFailed) else
  let t := t ++ [DeployEvent.createSymlink]
  if env.symlinkFails then (t, some DeployError.symlinkFailed) else
  let t := if env.defaultSiteExists then t ++ [DeployEvent.removeDefault] else t
  let t := t ++ [DeployEvent.testConfig]
  if env.testFails then (t, some DeployError.validationFailed) else
  let t := t ++ [DeployEvent.reload]
  if env.reloadFails then (t, some DeployError.reloadFailed) else
  (t, none)

/-! ## Site registry (`internal/config`, not part of the provided sources)

Only the callers of the registry are in the provided sources; the registry
operations themselves are modelled from the spec (§3, §4.1). -/

/-- A registered site, with the fields the provided callers populate
(`Name`, `Path`, `Type` ∈ {"link", "park"}, `PHPVersion` ("" = use the
configured default), `Secured`). -/
structure Site where
  Name : String
  Path : String
  /-- The Go field is `Type` ("link" or "park"); renamed because `Type` is
  a Lean keyword. -/
  SiteType : String
  PHPVersion : String
  Secured : Bool
deriving DecidableEq, Repr

/-- Modelled from the spec: `find(name) -> Site?` — look a site up by name
(first match) in the ordered registry. -/
def FindSite (sites : List Site) (name : String) : Option Site :=
  sites.find? (fun t => decide (t.Name = name))

/-- Modelled from the spec: `upsert(Site)` — "replace-by-name or append": a
re-insertion with an existing name replaces the prior record in place,
otherwise the site is appended. -/
def AddSite : List Site → Site → List Site
  | [], s => [s]
  | t :: ts, s => if t.Name = s.Name then s :: ts else t :: AddSite ts s

/-- Modelled from the spec: `remove(name)` — delete by name. -/
def RemoveSite (sites : List Site) (name : String) : List Site :=
  sites.filter (fun t => !(decide (t.Name = name)))

/-! ## The `unlink` command (`runUnlink`, CLI entry point)

`runUnlink` loads the registry, looks the site up, and only on a hit
removes the generated config, removes the live nginx config, removes the
site from the registry and saves it.  As for the deployment service, the
externally visible mutating steps become an ordered event trace. -/

/-- Mutating steps a `runUnlink` run can issue, in order. -/
inductive UnlinkEvent where
  | removeLocalConfig
  | removeNginx
  | saveSites (reg : List Site)
deriving DecidableEq, Repr

/-- Failure modes of `runUnlink`. -/
inductive UnlinkError where
  | loadSitesFailed
  | siteNotFound
  | loadConfigFailed
  | pathsFailed
  | removeConfigFailed
  | saveFailed
deriving DecidableEq, Repr

/-- Oracles for a `runUnlink` run: the loaded registry and the
success/failure of each external step. -/
structure UnlinkEnv where
  reg : List Site
  loadSitesFails : Bool
  loadConfigFails : Bool
  getPathsFails : Bool
  removeLocalFails : Bool
  goosIsLinux : Bool
  saveSitesFails : Bool

/-- `runUnlink` from the CLI layer: event trace and result of removing
`siteName`.  A failing `RemoveNginxConfig` only warns (non-fatal); the
local-config removal counts as failing only when the error is not
`IsNotExist`. -/
def runUnlink (env : UnlinkEnv) (siteName : String) : List UnlinkEvent × Option UnlinkError :=
  if env.loadSitesFails then ([], some UnlinkError.loadSitesFailed) else
  match FindSite env.reg siteName with
  | none => ([], some UnlinkError.siteNotFound)
  | some _ =>
      if env.loadConfigFails then ([], some UnlinkError.loadConfigFailed) else
      if env.getPathsFails then ([], some UnlinkError.pathsFailed) else
      let t := [UnlinkEvent.removeLocalConfig]
      if env.removeLocalFails then (t, some UnlinkError.removeConfigFailed) else
      let t := if env.goosIsLinux then t ++ [UnlinkEvent.removeNginx] else t
      let t := t ++ [UnlinkEvent.saveSites (RemoveSite env.reg siteName)]
      if env.saveSitesFails then (t, some UnlinkError.saveFailed) else
      (t, none)

/-! ## Runtime version detector (`internal/php/version.go`, `detector.go`) -/

/-- An installed PHP version, as produced by the detector
(`internal/php/version.go`). -/
structure PHPVersion where
  Version : String
  FullPath : String
  FPMSocket : String
  IsDefault : Bool
deriving DecidableEq, Repr

/-- `FormatVersion` from `internal/php/version.go`: keep only the first two
dot-separated components ("8.2.15" ↦ "8.2"); strings with fewer than two
components are returned unchanged. -/
def FormatVersion (version : String) : String :=
  match goSplit version "." with
  | p0 :: p1 :: _ => p0 ++ "." ++ p1
  | _ => version

/-- Filesystem/process oracles for a run of `detectLinuxPHP`:
`readDir` is `os.ReadDir` (`none` = unreadable directory, skipped);
`phpVersionOfBinary` is the result of `GetPHPVersionFromBinary` (runs the
binary with `-v` and extracts the first `major.minor` match, `none` =
failure); `lookPathPhp` is `exec.LookPath("php")`. -/
structure DetectEnv where
  readDir : String → Option (List String)
  phpVersionOfBinary : String → Option String
  lookPathPhp : Option String

/-- The fixed search directories of `detectLinuxPHP`. -/
def searchPaths : List String :=
  ["/usr/bin", "/usr/local/bin"]

/-- Per-directory-entry step of the `detectLinuxPHP` scan: names of the form
`php*` longer than three characters are probed for their version, the
version is normalised, deduplicated against the versions already found, and
on success a `PHPVersion` with the conventional FPM socket path is
appended. -/
def detectEntry (env : DetectEnv) (searchPath : String)
    (acc : List PHPVersion) (name : String) : List PHPVersion :=
  if goStartsWith name "php" && decide (3 < name.data.length) then
    let fullPath := filepathJoin searchPath name
    match env.phpVersionOfBinary fullPath with
    | none => acc
    | some v =>
        let version := FormatVersion v
        if acc.any (fun e => decide (e.Version = version)) then acc
        else
          acc ++ [{ Version := version, FullPath := fullPath,
                    FPMSocket := "/var/run/php/php" ++ version ++ "-fpm.sock",
                    IsDefault := false }]
  else acc

/-- Scan of one search directory (`os.ReadDir` failure skips the
directory). -/
def detectInDir (env : DetectEnv) (acc : List PHPVersion) (searchPath : String) :
    List PHPVersion :=
  match env.readDir searchPath with
  | none => acc
  | some entries => entries.foldl (detectEntry env searchPath) acc

/-- Mark the first entry whose version matches as the system default
(the `break` in the Go loop). -/
def markFirst : List PHPVersion → String → List PHPVersion
  | [], _ => []
  | e :: es, version =>
      if e.Version = version then { e with IsDefault := true } :: es
      else e :: markFirst es version

/-- The "check for default php" step of `detectLinuxPHP`. -/
def markDefault (env : DetectEnv) (versions : List PHPVersion) : List PHPVersion :=
  match env.lookPathPhp with
  | none => versions
  | some defaultPath =>
      match env.phpVersionOfBinary defaultPath with
      | none => versions
      | some v => markFirst versions (FormatVersion v)

/-- The ordering the final `sort.Slice(versions, Version i > Version j)`
establishes: `a` may precede `b` iff `a.Version` is not lexicographically
below `b.Version` (Go byte-wise string comparison). -/
def versionBefore (a b : PHPVersion) : Prop :=
  goStrLt a.Version b.Version = false

instance : DecidableRel versionBefore :=
  fun a b => inferInstanceAs (Decidable (goStrLt a.Version b.Version = false))

/-- `detectLinuxPHP` from `internal/php/detector.go`: scan the search
directories, mark the system default, and sort newest-first by Go string
comparison of the version strings.  (Go's `sort.Slice` is modelled by
`insertionSort`; the two agree because the deduplicated version keys are
pairwise distinct, so exactly one ordering satisfies the comparator.) -/
def detectLinuxPHP (env : DetectEnv) : List PHPVersion :=
  List.insertionSort versionBefore (markDefault env (searchPaths.foldl (detectInDir env) []))

/-- `ValidatePHPVersion` from `internal/php/detector.go`: exact membership
of a version string among the detected versions. -/
def ValidatePHPVersion (version : String) (availableVersions : List PHPVersion) : Bool :=
  availableVersions.any (fun v => decide (v.Version = version))

/-! ## Virtual-host generator (`internal/nginx`, file `part_000`) -/

/-- `GetPHPSocket` from the nginx package: the conventional PHP-FPM socket
path for a version, substituting the hardcoded default "8.2" for an empty
version string. -/
def GetPHPSocket (phpVersion : String) : String :=
  let v := if phpVersion = "" then "8.2" else phpVersion
  "/var/run/php/php" ++ v ++ "-fpm.sock"

/-- The fixed probe order of `GetDocumentRoot`. -/
def publicDirs : List String :=
  ["public", "public_html", "web", "htdocs"]

/-- Probe loop of `GetDocumentRoot`: first candidate subdirectory that
exists as a directory, else the site path itself.  `isDir` is the
`os.Stat`/`IsDir` oracle. -/
def GetDocumentRootAux (isDir : String → Bool) (sitePath : String) :
    List String → String
  | [] => sitePath
  | d :: ds =>
      if isDir (filepathJoin sitePath d) then filepathJoin sitePath d
      else GetDocumentRootAux isDir sitePath ds

/-- `GetDocumentRoot` from the nginx package. -/
def GetDocumentRoot (isDir : String → Bool) (sitePath : String) : String :=
  GetDocumentRootAux isDir sitePath publicDirs

/-- The data handed to the nginx template (nginx package `SiteConfig`). -/
structure SiteConfig where
  SiteName : String
  Domain : String
  ServerName : String
  Root : String
  SitePath : String
  PHPVersion : String
  PHPSocket : String
  UseSSL : Bool
  ListenPort : Nat
  CertPath : String
  KeyPath : String
deriving DecidableEq, Repr

/-- `CreateSiteConfig` from the nginx package.  `isDir` is the filesystem
oracle used by document-root discovery and `user` models
`os.Getenv("USER")`. -/
def CreateSiteConfig (isDir : String → Bool) (user : String)
    (siteName sitePath domain phpVersion : String) (useSSL : Bool) : SiteConfig :=
  let phpVersion := if phpVersion = "" then "8.2" else phpVersion
  let serverName := siteName ++ "." ++ domain
  let documentRoot := GetDocumentRoot isDir sitePath
  let phpSocket := GetPHPSocket phpVersion
  let cfg : SiteConfig :=
    { SiteName := siteName, Domain := domain, ServerName := serverName,
      Root := documentRoot, SitePath := sitePath, PHPVersion := phpVersion,
      PHPSocket := phpSocket, UseSSL := useSSL, ListenPort := 80,
      CertPath := "", KeyPath := "" }
  if useSSL then
    let certDir := "/home/" ++ user ++ "/.phppark/certificates"
    { cfg with CertPath := filepathJoin certDir (siteName ++ ".crt"),
               KeyPath := filepathJoin certDir (siteName ++ ".key") }
  else cfg

/-! ## DNS resolver manager (`internal/dns`, file `part_003`) -/

/-- `/run/systemd/resolve/stub-resolv.conf`. -/
def resolvedStubSymlink : String :=
  "/run/systemd/resolve/stub-resolv.conf"

/-- `/run/systemd/resolve/resolv.conf`. -/
def systemdResolveResolvConf : String :=
  "/run/systemd/resolve/resolv.conf"

/-- `setDNSStubListener` from `internal/dns`, as a pure transformer of the
textual content of `/etc/systemd/resolved.conf` (a missing file reads as
`""`; the final `sudo tee` writes the returned content back).  `value = ""`
removes every `DNSStubListener=` directive line; otherwise the directive is
(padded by the three cases of the Go `switch`) replaced, injected after an
existing `[Resolve]` heading, or appended in a fresh `[Resolve]` section. -/
def setDNSStubListener (content value : String) : String :=
  if value = "" then
    goJoin ((goSplit content "\n").filter
      (fun line => !(goStartsWith (goTrimSpace line) "DNSStubListener="))) "\n"
  else
    let newSetting := "DNSStubListener=" ++ value
    if goContains content "DNSStubListener=" then
      goJoin ((goSplit content "\n").map
        (fun line =>
          if goStartsWith (goTrimSpace line) "DNSStubListener=" then newSetting
          else line)) "\n"
    else if goContains content "[Resolve]" then
      goReplaceOnce content "[Resolve]" ("[Resolve]\n" ++ newSetting)
    else
      let c := if content ≠ "" ∧ goEndsWith content "\n" = false then content ++ "\n"
               else content
      c ++ "\n[Resolve]\n" ++ newSetting ++ "\n"

/-- A filesystem node as far as the resolver state machine observes it. -/
inductive FsNode where
  | absent
  | symlink (target : String)
  | file (content : String)
deriving DecidableEq, Repr

/-- The filesystem state the stub-listener state machine reads and writes:
`/etc/resolv.conf`, the content of `/etc/systemd/resolved.conf`, the
`/etc/dnsmasq.d/phppark.conf` marker, and whether systemd-resolved's live
upstream file `/run/systemd/resolve/resolv.conf` exists. -/
structure ResolvState where
  resolvConf : FsNode
  resolvedConf : String
  phpparkConf : Option String
  systemdResolvConfExists : Bool
deriving DecidableEq, Repr

/-- `buildDnsmasqUpstreamConf` from `internal/dns`. -/
def buildDnsmasqUpstreamConf (st : ResolvState) : String :=
  if st.systemdResolvConfExists then
    "# Managed by PHPark\nresolv-file=" ++ systemdResolveResolvConf ++ "\n"
  else
    "# Managed by PHPark\nserver=8.8.8.8\nserver=1.1.1.1\n"

/-- `DisableSystemdResolvedStub` from `internal/dns`, on the success path of
its external commands: (1) write `DNSStubListener=no`, (2) restart
systemd-resolved (no modelled filesystem change), (3) write the dnsmasq
upstream marker, (4) if `/etc/resolv.conf` is a symlink whose target
mentions `systemd`, replace it by a plain file pointing at loopback. -/
def DisableSystemdResolvedStub (st : ResolvState) : ResolvState :=
  let st := { st with resolvedConf := setDNSStubListener st.resolvedConf "no" }
  let st := { st with phpparkConf := some (buildDnsmasqUpstreamConf st) }
  match st.resolvConf with
  | FsNode.symlink target =>
      if goContains target "systemd" then
        { st with resolvConf := FsNode.file "# Managed by PHPark\nnameserver 127.0.0.1\n" }
      else st
  | _ => st

/-- `RevertSystemdResolvedStub` from `internal/dns`, on the success path:
remove the directive, restart, delete the marker, and point
`/etc/resolv.conf` back at the standard stub symlink (`ln -sf`). -/
def RevertSystemdResolvedStub (st : ResolvState) : ResolvState :=
  let st := { st with resolvedConf := setDNSStubListener st.resolvedConf "" }
  let st := { st with phpparkConf := none }
  { st with resolvConf := FsNode.symlink resolvedStubSymlink }

/-! ## Auxiliary notions used only to state claims -/

/-- Numeric value of a run of decimal digits (how a decimal numeral reads as
a number); used only to state the numeric major/minor comparison claimed of
the detector's ordering. -/
def digitsToNat (cs : List Char) : Nat :=
  cs.foldl (fun n c => n * 10 + (c.toNat - 48)) 0

/-- The numeric `(major, minor)` reading of a version string, for stating
the claimed numeric ordering. -/
def versionMajorMinor (s : String) : Nat × Nat :=
  match goSplit s "." with
  | a :: b :: _ => (digitsToNat a.data, digitsToNat b.data)
  | _ => (0, 0)

/-- `(major, minor)` numeric comparison, newest-first: `a` is at least as
new as `b`. -/
def numGe (a b : Nat × Nat) : Prop :=
  b.1 < a.1 ∨ (a.1 = b.1 ∧ b.2 ≤ a.2)

instance : DecidableRel numGe :=
  fun _ _ => inferInstanceAs (Decidable (_ ∨ _))

/-! ## Concrete runs referenced by the theorems below -/

/-- A deployment run in which every external step succeeds. -/
def envDeployAllOk : DeployEnv :=
  { copyFails := false, symlinkFails := false, defaultSiteExists := false,
    removeDefaultFails := false, testFails := false, reloadFails := false }

/-- A deployment run whose `nginx -t` validation fails. -/
def envDeployTestFails : DeployEnv :=
  { copyFails := false, symlinkFails := false, defaultSiteExists := false,
    removeDefaultFails := false, testFails := true, reloadFails := false }

/-- A registered example site. -/
def siteA : Site :=
  { Name := "blog", Path := "/home/u/sites/blog", SiteType := "park",
    PHPVersion := "", Secured := false }

/-- A re-registration of the same name with different data. -/
def siteA2 : Site :=
  { Name := "blog", Path := "/home/u/sites/blog", SiteType := "park",
    PHPVersion := "8.3", Secured := true }

/-- An `unlink` run over an empty registry with all effects succeeding. -/
def envUnlinkEmpty : UnlinkEnv :=
  { reg := [], loadSitesFails := false, loadConfigFails := false,
    getPathsFails := false, removeLocalFails := false, goosIsLinux := true,
    saveSitesFails := false }

/-- A detector run that finds binaries reporting versions `10.0.1` and
`8.2.15` under `/usr/bin`. -/
def envDetectTen : DetectEnv :=
  { readDir := fun p => if p = "/usr/bin" then some ["php10.0", "php8.2"] else none,
    phpVersionOfBinary := fun p =>
      if p = "/usr/bin/php10.0" then some "10.0.1"
      else if p = "/usr/bin/php8.2" then some "8.2.15" else none,
    lookPathPhp := none }

/-- A detector run that finds a single `php8.3` binary. -/
def envDetectOne : DetectEnv :=
  { readDir := fun p => if p = "/usr/bin" then some ["php8.3"] else none,
    phpVersionOfBinary := fun p => if p = "/usr/bin/php8.3" then some "8.3.1" else none,
    lookPathPhp := none }

/-- A resolver state whose `/etc/resolv.conf` is the (also common) symlink
to systemd-resolved's live `resolv.conf` rather than to the stub file. -/
def stResolvLive : ResolvState :=
  { resolvConf := FsNode.symlink systemdResolveResolvConf,
    resolvedConf := "[Resolve]\n", phpparkConf := none,
    systemdResolvConfExists := true }

/-! ## Helper lemmas: the lexicographic comparator -/

theorem chLt_asymm : ∀ (x y : List Char), chLt x y = true → chLt y x = false := by
  intro x
  induction x with
  | nil =>
    intro y h
    cases y with
    | nil => simp [chLt] at h
    | cons b bs => simp [chLt]
  | cons a as ih =>
    intro y h
    cases y with
    | nil => simp [chLt] at h
    | cons b bs =>
      simp only [chLt] at h ⊢
      by_cases hab : a = b
      · subst hab
        rw [if_pos rfl] at h ⊢
        exact ih bs h
      · have hba : ¬ b = a := fun e => hab e.symm
        rw [if_neg hab] at h
        rw [if_neg hba]
        simp only [decide_eq_true_eq] at h
        simp only [decide_eq_false_iff_not]
        exact lt_asymm h

theorem chLt_resolve :
    ∀ (x y z : List Char), chLt x z = true → chLt x y = true ∨ chLt y z = true := by
  intro x
  induction x with
  | nil =>
    intro y z hz
    cases z with
    | nil => simp [chLt] at hz
    | cons c cs =>
      cases y with
      | nil => right; simp [chLt]
      | cons b bs => left; simp [chLt]
  | cons a as ih =>
    intro y z hz
    cases z with
    | nil => simp [chLt] at hz
    | cons c cs =>
      cases y with
      | nil => right; simp [chLt]
      | cons b bs =>
        simp only [chLt] at hz ⊢
        by_cases hac : a = c
        · subst hac
          rw [if_pos rfl] at hz
          by_cases hab : a = b
          · subst hab
            rw [if_pos rfl, if_pos rfl]
            exact ih bs cs hz
          · have hba : ¬ b = a := fun e => hab e.symm
            rw [if_neg hab, if_neg hba]
            simp only [decide_eq_true_eq]
            exact lt_or_gt_of_ne hab
        · rw [if_neg hac] at hz
          simp only [decide_eq_true_eq] at hz
          by_cases hab : a = b
          · subst hab
            right
            rw [if_neg hac]
            simp only [decide_eq_true_eq]
            exact hz
          · by_cases hbc : b = c
            · subst hbc
              left
              rw [if_neg hab]
              simp only [decide_eq_true_eq]
              exact hz
            · rcases lt_or_gt_of_ne hab with h1 | h1
              · left
                rw [if_neg hab]
                simp only [decide_eq_true_eq]
                exact h1
              · right
                rw [if_neg hbc]
                simp only [decide_eq_true_eq]
                exact lt_trans h1 hz

instance : IsTotal PHPVersion versionBefore := by
  refine ⟨fun a b => ?_⟩
  unfold versionBefore goStrLt
  by_cases h : chLt a.Version.data b.Version.data = true
  · right
    exact chLt_asymm _ _ h
  · left
    exact Bool.eq_false_iff.mpr h

instance : IsTrans PHPVersion versionBefore := by
  refine ⟨fun a b c hab hbc => ?_⟩
  unfold versionBefore goStrLt at *
  by_contra hac
  have hac' : chLt a.Version.data c.Version.data = true :=
    eq_true_of_ne_false hac
  rcases chLt_resolve a.Version.data b.Version.data c.Version.data hac' with h | h
  · rw [hab] at h
    exact Bool.false_ne_true h
  · rw [hbc] at h
    exact Bool.false_ne_true h

/-! ## Helper lemmas: the detector scan -/

/-- One scan step keeps the list of (already normalised) version keys
duplicate-free. -/
theorem detectEntry_nodup (env : DetectEnv) (searchPath name : String)
    {acc : List PHPVersion} (h : (acc.map PHPVersion.Version).Nodup) :
    ((detectEntry env searchPath acc name).map PHPVersion.Version).Nodup := by
  simp only [detectEntry]
  split
  · split
    · exact h
    · split
      · exact h
      · rename_i hany
        rw [List.map_append]
        rw [List.nodup_append]
        refine ⟨h, by simp, ?_⟩
        intro x hx hx'
        simp only [List.map_cons, List.map_nil, List.mem_singleton] at hx'
        subst hx'
        simp only [List.mem_map] at hx
        obtain ⟨e, he, hev⟩ := hx
        have := (List.any_eq_false.mp (Bool.eq_false_iff.mpr hany)) e he
        simp [hev] at this
  · exact h

/-- Scanning a whole directory preserves duplicate-freeness of the version
keys. -/
theorem foldl_detectEntry_nodup (env : DetectEnv) (searchPath : String) :
    ∀ (entries : List String) (acc : List PHPVersion),
      (acc.map PHPVersion.Version).Nodup →
      (((entries.foldl (detectEntry env searchPath) acc)).map PHPVersion.Version).Nodup := by
  intro entries
  induction entries with
  | nil => intro acc h; exact h
  | cons e es ih =>
    intro acc h
    exact ih _ (detectEntry_nodup env searchPath e h)

/-- The full search-directory scan produces pairwise distinct version
keys. -/
theorem foldl_detectInDir_nodup (env : DetectEnv) :
    ∀ (paths : List String) (acc : List PHPVersion),
      (acc.map PHPVersion.Version).Nodup →
      ((paths.foldl (detectInDir env) acc).map PHPVersion.Version).Nodup := by
  intro paths
  induction paths with
  | nil => intro acc h; exact h
  | cons p ps ih =>
    intro acc h
    refine ih _ ?_
    unfold detectInDir
    split
    · exact h
    · exact foldl_detectEntry_nodup env p _ acc h

/-- Marking the default entry does not change the version keys. -/
theorem markFirst_map_version :
    ∀ (l : List PHPVersion) (v : String),
      (markFirst l v).map PHPVersion.Version = l.map PHPVersion.Version := by
  intro l v
  induction l with
  | nil => rfl
  | cons e es ih =>
    unfold markFirst
    split
    · rfl
    · simp [ih]

/-- Neither does the whole default-marking step. -/
theorem markDefault_map_version (env : DetectEnv) (l : List PHPVersion) :
    (markDefault env l).map PHPVersion.Version = l.map PHPVersion.Version := by
  unfold markDefault
  split
  · rfl
  · split
    · rfl
    · exact markFirst_map_version l _

/-- Every member of `markFirst l v` shares version and socket with a member
of `l`. -/
theorem markFirst_mem :
    ∀ {l : List PHPVersion} {v : String} {e : PHPVersion}, e ∈ markFirst l v →
      ∃ e₀ ∈ l, e.Version = e₀.Version ∧ e.FPMSocket = e₀.FPMSocket := by
  intro l
  induction l with
  | nil => intro v e h; simp [markFirst] at h
  | cons t ts ih =>
    intro v e h
    unfold markFirst at h
    split at h
    · rcases List.mem_cons.mp h with he | he
      · exact ⟨t, List.mem_cons_self t ts, by simp [he]⟩
      · exact ⟨e, List.mem_cons_of_mem t he, rfl, rfl⟩
    · rcases List.mem_cons.mp h with he | he
      · exact ⟨t, List.mem_cons_self t ts, by simp [he]⟩
      · obtain ⟨e₀, he₀, hv, hs⟩ := ih he
        exact ⟨e₀, List.mem_cons_of_mem t he₀, hv, hs⟩

/-- `FormatVersion` never maps a non-empty string to the empty string. -/
theorem FormatVersion_ne_empty {v : String} (h : v ≠ "") : FormatVersion v ≠ "" := by
  unfold FormatVersion
  split
  · rename_i p0 p1 rest heq
    intro he
    have : (p0 ++ "." ++ p1).data = ("" : String).data := congrArg String.data he
    simp [String.data_append] at this
  · exact h

/-- The entries produced by the scan satisfy the fixed socket-naming
convention, with a non-empty version key (given that the version oracle
never reports an empty version string, which `GetPHPVersionFromBinary`
guarantees by construction: it returns a match of `\d+\.\d+`). -/
theorem foldl_detect_sockets (env : DetectEnv)
    (henv : ∀ p v, env.phpVersionOfBinary p = some v → v ≠ "") :
    ∀ (paths : List String) (acc : List PHPVersion),
      (∀ e ∈ acc, e.FPMSocket = "/var/run/php/php" ++ e.Version ++ "-fpm.sock" ∧ e.Version ≠ "") →
      ∀ e ∈ paths.foldl (detectInDir env) acc,
        e.FPMSocket = "/var/run/php/php" ++ e.Version ++ "-fpm.sock" ∧ e.Version ≠ "" := by
  have hstep : ∀ (searchPath : String) (entries : List String) (acc : List PHPVersion),
      (∀ e ∈ acc, e.FPMSocket = "/var/run/php/php" ++ e.Version ++ "-fpm.sock" ∧ e.Version ≠ "") →
      ∀ e ∈ entries.foldl (detectEntry env searchPath) acc,
        e.FPMSocket = "/var/run/php/php" ++ e.Version ++ "-fpm.sock" ∧ e.Version ≠ "" := by
    intro searchPath entries
    induction entries with
    | nil => intro acc hacc; exact hacc
    | cons n ns ih =>
      intro acc hacc
      refine ih _ ?_
      simp only [detectEntry]
      split
      · split
        · exact hacc
        · rename_i v hv
          split
          · exact hacc
          · intro e he
            rcases List.mem_append.mp he with he | he
            · exact hacc e he
            · simp only [List.mem_singleton] at he
              subst he
              exact ⟨rfl, FormatVersion_ne_empty (henv _ _ hv)⟩
      · exact hacc
  intro paths
  induction paths with
  | nil => intro acc hacc; exact hacc
  | cons p ps ih =>
    intro acc hacc
    refine ih _ ?_
    unfold detectInDir
    split
    · exact hacc
    · exact hstep p _ acc hacc

/-! ## Helper lemmas: the site registry -/

/-- A name occurring after an upsert is the upserted name or an existing
one. -/
theorem mem_map_name_AddSite :
    ∀ {reg : List Site} {s : Site} {x : String},
      x ∈ (AddSite reg s).map Site.Name → x = s.Name ∨ x ∈ reg.map Site.Name := by
  intro reg
  induction reg with
  | nil =>
    intro s x hx
    simp [AddSite] at hx
    exact Or.inl hx
  | cons t ts ih =>
    intro s x hx
    unfold AddSite at hx
    split at hx
    · rcases List.mem_cons.mp hx with h | h
      · exact Or.inl h
      · exact Or.inr (List.mem_cons_of_mem _ h)
    · rcases List.mem_cons.mp hx with h | h
      · exact Or.inr (by simp [h])
      · rcases ih h with h' | h'
        · exact Or.inl h'
        · exact Or.inr (List.mem_cons_of_mem _ h')

/-! ## Helper lemmas: document-root discovery -/

/-- The probe loop returns the first existing candidate, else the site
path. -/
theorem GetDocumentRootAux_eq_find (isDir : String → Bool) (sitePath : String) :
    ∀ l : List String,
      GetDocumentRootAux isDir sitePath l =
        match l.find? (fun d => isDir (filepathJoin sitePath d)) with
        | some d => filepathJoin sitePath d
        | none => sitePath := by
  intro l
  induction l with
  | nil => rfl
  | cons d ds ih =>
    by_cases h : isDir (filepathJoin sitePath d) = true
    · simp [GetDocumentRootAux, h, List.find?_cons_of_pos _ h]
    · have h' : isDir (filepathJoin sitePath d) = false := Bool.eq_false_iff.mpr h
      simp [GetDocumentRootAux, h', List.find?_cons_of_neg, ih]

/-! ## Additional helper lemmas for the claims -/

/-- Members of `markDefault` keep the version and socket of a member of the
input. -/
theorem markDefault_mem {env : DetectEnv} {l : List PHPVersion} {e : PHPVersion}
    (he : e ∈ markDefault env l) :
    ∃ e₀ ∈ l, e.Version = e₀.Version ∧ e.FPMSocket = e₀.FPMSocket := by
  unfold markDefault at he
  split at he
  · exact ⟨e, he, rfl, rfl⟩
  · split at he
    · exact ⟨e, he, rfl, rfl⟩
    · exact markFirst_mem he

/-! ## The claims -/

/-- C1: In `deploy(siteName, configPath)` (`DeployNginxConfig`), the proxy
configuration validation step always runs before the reload step, and when
validation fails the operation aborts with an error before the reload: for
every execution in which the validation invocation fails, zero reload
invocations occur. -/
theorem C1_validation_before_reload (env : DeployEnv) :
    (env.testFails = true → (DeployNginxConfig env).1.count DeployEvent.reload = 0)
    ∧ (DeployEvent.reload ∈ (DeployNginxConfig env).1 →
        DeployEvent.testConfig ∈ (DeployNginxConfig env).1 ∧
        (DeployNginxConfig env).1.indexOf DeployEvent.testConfig <
          (DeployNginxConfig env).1.indexOf DeployEvent.reload) := by
  obtain ⟨c, s, d, r, t, l⟩ := env
  cases c <;> cases s <;> cases d <;> cases r <;> cases t <;> cases l <;> decide

/-- Witness for C1: concrete runs — with failing validation the trace
contains zero reloads; with everything succeeding the validation event
precedes the reload event. -/
theorem C1_witness :
    (DeployNginxConfig envDeployTestFails).1.count DeployEvent.reload = 0
    ∧ (DeployEvent.testConfig ∈ (DeployNginxConfig envDeployAllOk).1 ∧
        (DeployNginxConfig envDeployAllOk).1.indexOf DeployEvent.testConfig <
          (DeployNginxConfig envDeployAllOk).1.indexOf DeployEvent.reload) :=
  ⟨(C1_validation_before_reload envDeployTestFails).1 rfl,
   (C1_validation_before_reload envDeployAllOk).2 (by decide)⟩

/-- C2: for every registry state and every valid `Site` `s`, after
`upsert(s)` the lookup `find(s.name)` returns a record equal to `s`; if a
site named `s.name` was already present the upsert replaces it in place
(registry length unchanged); and upserting preserves the invariant that no
two sites share a name. -/
theorem C2_registry_upsert :
    (∀ (reg : List Site) (s : Site), FindSite (AddSite reg s) s.Name = some s)
    ∧ (∀ (reg : List Site) (s : Site),
        FindSite reg s.Name ≠ none → (AddSite reg s).length = reg.length)
    ∧ (∀ (reg : List Site) (s : Site),
        (reg.map Site.Name).Nodup → ((AddSite reg s).map Site.Name).Nodup) := by
  refine ⟨?_, ?_, ?_⟩
  · intro reg s
    induction reg with
    | nil => simp [AddSite, FindSite]
    | cons t ts ih =>
      by_cases h : t.Name = s.Name
      · simp [AddSite, h, FindSite]
      · unfold FindSite at ih ⊢
        simp only [AddSite, if_neg h]
        rw [List.find?_cons_of_neg _ (by simp [h])]
        exact ih
  · intro reg s
    induction reg with
    | nil => intro h; simp [FindSite] at h
    | cons t ts ih =>
      intro h
      by_cases ht : t.Name = s.Name
      · simp [AddSite, ht]
      · have h' : FindSite ts s.Name ≠ none := by
          unfold FindSite at h ⊢
          rw [List.find?_cons_of_neg _ (by simp [ht])] at h
          exact h
        simp [AddSite, ht, ih h']
  · intro reg s
    induction reg with
    | nil => intro _; simp [AddSite]
    | cons t ts ih =>
      intro h
      simp only [List.map_cons, List.nodup_cons] at h
      obtain ⟨hnotin, hts⟩ := h
      by_cases ht : t.Name = s.Name
      · simp only [AddSite, if_pos ht, List.map_cons, List.nodup_cons]
        exact ⟨ht ▸ hnotin, hts⟩
      · simp only [AddSite, if_neg ht, List.map_cons, List.nodup_cons]
        refine ⟨?_, ih hts⟩
        intro hmem
        rcases mem_map_name_AddSite hmem with he | hm
        · exact ht he
        · exact hnotin hm

/-- Witness for C2: upserting a second record named "blog" over a registry
already containing a "blog" record replaces it, keeps the length, and keeps
names duplicate-free. -/
theorem C2_witness :
    FindSite (AddSite [siteA] siteA2) siteA2.Name = some siteA2
    ∧ (AddSite [siteA] siteA2).length = [siteA].length
    ∧ ((AddSite [siteA] siteA2).map Site.Name).Nodup :=
  ⟨C2_registry_upsert.1 [siteA] siteA2,
   C2_registry_upsert.2.1 [siteA] siteA2 (by decide),
   C2_registry_upsert.2.2 [siteA] siteA2 (by decide)⟩

/-- C3 (counterexample): `detectLinuxPHP` sorts by Go *string* comparison,
not numerically: a run detecting versions `10.0` and `8.2` returns them in
the order `["8.2", "10.0"]`, and `(8,2)` is not numerically at least
`(10,0)` — refuting the claimed numeric newest-first order at this input
(the claim's own example, a "10.0" entry preceding an "8.2" entry,
fails). -/
theorem C3_counterexample :
    (detectLinuxPHP envDetectTen).map PHPVersion.Version = ["8.2", "10.0"]
    ∧ ¬ numGe (versionMajorMinor "8.2") (versionMajorMinor "10.0") := by
  decide

/-- C3 (amended): `detectLinuxPHP` returns the detected runtime versions
ordered newest-first under Go lexicographic (byte-wise) comparison of the
version strings — which agrees with the numeric `(major, minor)` order
whenever all majors have a single digit, but not beyond (e.g. "10.0" sorts
after "8.2"). -/
theorem C3_sorted_by_string_comparison (env : DetectEnv) :
    List.Sorted versionBefore (detectLinuxPHP env) := by
  unfold detectLinuxPHP
  exact List.sorted_insertionSort versionBefore _

/-- C4 (code evaluated at the failing input): on the stock
Ubuntu/Debian-style content `"#DNSStubListener=yes\n"`,
`setDNSStubListener "no"` takes the replace branch (the *substring*
`DNSStubListener=` occurs) yet replaces nothing (no line *starts with* the
directive), so the produced content is unchanged and contains no
`DNSStubListener=no` line — contradicting the claim. -/
theorem C4_commented_directive_unchanged :
    setDNSStubListener "#DNSStubListener=yes\n" "no" = "#DNSStubListener=yes\n"
    ∧ goContains "#DNSStubListener=yes\n" "DNSStubListener=" = true
    ∧ "DNSStubListener=no" ∉ goSplit (setDNSStubListener "#DNSStubListener=yes\n" "no") "\n" := by
  decide

/-- C5 (counterexample): starting from `/etc/resolv.conf` being a symlink
into the system resolver whose target is the *live* resolver file (not the
stub file), `disableStub` followed by `revertStub` does not restore the
original target: the revert unconditionally links to the standard stub
path. -/
theorem C5_counterexample :
    stResolvLive.resolvConf = FsNode.symlink systemdResolveResolvConf
    ∧ goContains systemdResolveResolvConf "systemd" = true
    ∧ (RevertSystemdResolvedStub (DisableSystemdResolvedStub stResolvLive)).resolvConf
        ≠ stResolvLive.resolvConf := by
  decide

/-- C5 (amended): after `disableStub` followed by `revertStub` the resolver
indirection `/etc/resolv.conf` is again a symbolic link, but its target is
always the standard stub path `/run/systemd/resolve/stub-resolv.conf`; this
equals the pre-`disableStub` target exactly when the original link already
pointed at the stub path. -/
theorem C5_revert_targets_stub (st : ResolvState) :
    (RevertSystemdResolvedStub (DisableSystemdResolvedStub st)).resolvConf
      = FsNode.symlink resolvedStubSymlink := rfl

/-- C6: `GetDocumentRoot` probes `public`, `public_html`, `web`, `htdocs`
in that fixed order and returns the first probed path that exists as a
directory, else the site path itself; for a site containing only a `public`
subdirectory it returns `sitePath/public`. -/
theorem C6_document_root :
    (∀ (isDir : String → Bool) (sitePath : String),
        GetDocumentRoot isDir sitePath =
          match publicDirs.find? (fun d => isDir (filepathJoin sitePath d)) with
          | some d => filepathJoin sitePath d
          | none => sitePath)
    ∧ ∀ sitePath : String,
        GetDocumentRoot (fun p => decide (p = filepathJoin sitePath "public")) sitePath
          = filepathJoin sitePath "public" := by
  constructor
  · intro isDir sitePath
    exact GetDocumentRootAux_eq_find isDir sitePath publicDirs
  · intro sitePath
    simp [GetDocumentRoot, publicDirs, GetDocumentRootAux]

/-- C7: version normalisation maps both "8.2.15" and "8.2" to "8.2"; for
every version string with at least two dot-separated components
`FormatVersion` returns the first two components; and no two entries of a
`detectLinuxPHP` result share a normalised version string (the `Version`
field of every produced entry is the normalised string). -/
theorem C7_normalization_and_dedup :
    FormatVersion "8.2.15" = "8.2" ∧ FormatVersion "8.2" = "8.2"
    ∧ (∀ (s p0 p1 : String) (rest : List String),
        goSplit s "." = p0 :: p1 :: rest → FormatVersion s = p0 ++ "." ++ p1)
    ∧ ∀ env : DetectEnv, ((detectLinuxPHP env).map PHPVersion.Version).Nodup := by
  refine ⟨by decide, by decide, ?_, ?_⟩
  · intro s p0 p1 rest h
    unfold FormatVersion
    rw [h]
  · intro env
    unfold detectLinuxPHP
    have h1 : ((searchPaths.foldl (detectInDir env) []).map PHPVersion.Version).Nodup :=
      foldl_detectInDir_nodup env searchPaths [] (by simp)
    have h2 : ((markDefault env
        (searchPaths.foldl (detectInDir env) [])).map PHPVersion.Version).Nodup := by
      rw [markDefault_map_version]
      exact h1
    have hperm := (List.perm_insertionSort versionBefore
      (markDefault env (searchPaths.foldl (detectInDir env) []))).map PHPVersion.Version
    exact (List.Perm.nodup_iff hperm).mpr h2

/-- Witness for C7: the general first-two-components law applied at the
concrete split of "7.4.33". -/
theorem C7_witness :
    goSplit "7.4.33" "." = ["7", "4", "33"]
    ∧ FormatVersion "7.4.33" = "7" ++ "." ++ "4" :=
  ⟨by decide, C7_normalization_and_dedup.2.2.1 "7.4.33" "7" "4" ["33"] (by decide)⟩

/-- C8: the virtual-host generator and the runtime detector derive the
pool-socket path by the same fixed convention: for every non-empty version
string `v`, `GetPHPSocket v = "/var/run/php/php" ++ v ++ "-fpm.sock"`, and
for every entry of `detectLinuxPHP` (whose version oracle never reports an
empty version, as `GetPHPVersionFromBinary` guarantees by returning a match
of `\d+\.\d+`), `GetPHPSocket entry.Version = entry.FPMSocket`. -/
theorem C8_socket_paths_agree :
    (∀ v : String, v ≠ "" → GetPHPSocket v = "/var/run/php/php" ++ v ++ "-fpm.sock")
    ∧ ∀ env : DetectEnv,
        (∀ p v, env.phpVersionOfBinary p = some v → v ≠ "") →
        ∀ e ∈ detectLinuxPHP env, GetPHPSocket e.Version = e.FPMSocket := by
  constructor
  · intro v hv
    simp only [GetPHPSocket]
    rw [if_neg hv]
  · intro env henv e he
    unfold detectLinuxPHP at he
    rw [List.mem_insertionSort] at he
    obtain ⟨e₀, he₀, hv, hs⟩ := markDefault_mem he
    have hinv := foldl_detect_sockets env henv searchPaths []
      (by intro e' he'; simp at he') e₀ he₀
    rw [hv, hs, hinv.1]
    simp only [GetPHPSocket]
    rw [if_neg hinv.2]

/-- Witness for C8: the convention at the concrete version "8.3", and the
detector/generator agreement on a concrete run that detects `php8.3`. -/
theorem C8_witness :
    GetPHPSocket "8.3" = "/var/run/php/php" ++ "8.3" ++ "-fpm.sock"
    ∧ ∀ e ∈ detectLinuxPHP envDetectOne, GetPHPSocket e.Version = e.FPMSocket :=
  ⟨C8_socket_paths_agree.1 "8.3" (by decide),
   C8_socket_paths_agree.2 envDetectOne (by
      intro p v h
      simp only [envDetectOne] at h
      split at h
      · injection h with h'
        subst h'
        decide
      · exact Option.noConfusion h)⟩

/-- C9: for every registry containing no site named `n` (and a registry
load that succeeds), `runUnlink n` fails with the not-found error and
issues no mutating step at all — in particular no registry save — so the
registry is left unchanged. -/
theorem C9_unlink_missing_site (env : UnlinkEnv) (n : String)
    (hload : env.loadSitesFails = false) (hfind : FindSite env.reg n = none) :
    runUnlink env n = ([], some UnlinkError.siteNotFound) := by
  unfold runUnlink
  rw [hload, hfind]
  simp

/-- Witness for C9: unlinking "missing" from an empty registry. -/
theorem C9_witness :
    runUnlink envUnlinkEmpty "missing" = ([], some UnlinkError.siteNotFound) :=
  C9_unlink_missing_site envUnlinkEmpty "missing" rfl rfl

/-- C10: a `CreateSiteConfig` call whose runtime-version argument is the
empty string substitutes the hardcoded "8.2" (regardless of any configured
default, which this function never receives): the produced `SiteConfig` has
`PHPVersion = "8.2"` and `PHPSocket = "/var/run/php/php8.2-fpm.sock"`. -/
theorem C10_empty_version_defaults (isDir : String → Bool)
    (user siteName sitePath domain : String) (useSSL : Bool) :
    (CreateSiteConfig isDir user siteName sitePath domain "" useSSL).PHPVersion = "8.2"
    ∧ (CreateSiteConfig isDir user siteName sitePath domain "" useSSL).PHPSocket
        = "/var/run/php/php8.2-fpm.sock" := by
  cases useSSL <;> exact ⟨rfl, rfl⟩
